import Mathlib

/-!
Verification development for the timeline data source of the
`frigate-hass-card` repository.

The aggregator (`TimelineDataSource` in `src/utils/timeline-source.ts`) is
embedded directly.  The helpers it imports (`MemoryRangeSet`,
`ExpiringMemoryRangeSet`, `compressRanges`, `capEndDate`,
`convertRangeToCacheFriendlyTimes`, `sortMedia`) live in files that are not
part of the source snapshot; they are modelled from the specification (and,
where the repository's unit tests pin their behaviour, from those tests).

Instants are epoch milliseconds represented as `Nat`.
-/

namespace FrigateTimeline

/-! ## Time units (epoch milliseconds) -/

def MS_PER_MINUTE : Nat := 60000

def MS_PER_HOUR : Nat := 3600000

def MS_PER_DAY : Nat := 86400000

/-- A time window (source: `TimelineWindow` / `DateRange`, fields
`start`/`end`; `end` is renamed `stop` because `end` is a Lean keyword). -/
structure TWindow where
  start : Nat
  stop : Nat
  deriving DecidableEq, Repr

/-- Modelled from the spec: `capEndDate(date) -> date` returns
`min(date, now)` (spec §4.3; confirmed by the repository's
`capEndDate` unit tests). The implementation file
`src/camera-manager/utils.ts` is absent from the snapshot. -/
def capEndDate (now date : Nat) : Nat := min date now

/-- Modelled from the spec: start of the clock hour containing `t`. -/
def startOfHour (t : Nat) : Nat := t / MS_PER_HOUR * MS_PER_HOUR

/-- Modelled from the spec: last millisecond (`HH:59:59.999`) of the clock
hour containing `t`. -/
def endOfHour (t : Nat) : Nat := t / MS_PER_HOUR * MS_PER_HOUR + (MS_PER_HOUR - 1)

/-- Modelled from the spec: start of the clock day containing `t`. -/
def startOfDay (t : Nat) : Nat := t / MS_PER_DAY * MS_PER_DAY

/-- Modelled from the spec: last millisecond (`23:59:59.999`) of the clock
day containing `t`. -/
def endOfDay (t : Nat) : Nat := t / MS_PER_DAY * MS_PER_DAY + (MS_PER_DAY - 1)

/-- Modelled from the spec: last millisecond (`MM:59.999`) of the clock
minute containing `t`. -/
def endOfMinute (t : Nat) : Nat := t / MS_PER_MINUTE * MS_PER_MINUTE + (MS_PER_MINUTE - 1)

/-- Modelled from the spec: `convertRangeToCacheFriendlyTimes` (the
WindowQuantizer, §4.3).  The implementation file is absent from the
snapshot; this model follows the spec's words and the repository's unit
tests in `tests/camera-manager/utils.test.ts`:

* a range within a single clock hour snaps to that hour
  (`HH:00:00.000`–`HH:59:59.999`); otherwise it snaps to clock-day
  boundaries;
* with `endCap` set, the snapped end is first capped to `now`
  (`capEndDate`) and then extended to the end of its minute — the tests
  pin `endCap` at `now = 14:25:00` to produce `14:25:59.999`. -/
def convertRangeToCacheFriendlyTimes (now : Nat) (w : TWindow) (endCap : Bool) : TWindow :=
  let sameHour : Bool := w.start / MS_PER_HOUR == w.stop / MS_PER_HOUR
  let s := if sameHour then startOfHour w.start else startOfDay w.start
  let e := if sameHour then endOfHour w.stop else endOfDay w.stop
  ⟨s, if endCap then endOfMinute (capEndDate now e) else e⟩

/-! ### Quantizer bounds -/

theorem startOfHour_le (t : Nat) : startOfHour t ≤ t :=
  Nat.div_mul_le_self t MS_PER_HOUR

theorem startOfDay_le (t : Nat) : startOfDay t ≤ t :=
  Nat.div_mul_le_self t MS_PER_DAY

theorem le_endOfHour (t : Nat) : t ≤ endOfHour t := by
  have h := Nat.div_add_mod t MS_PER_HOUR
  have h2 : t % MS_PER_HOUR < MS_PER_HOUR := Nat.mod_lt t (by decide)
  unfold endOfHour MS_PER_HOUR at *
  omega

theorem le_endOfDay (t : Nat) : t ≤ endOfDay t := by
  have h := Nat.div_add_mod t MS_PER_DAY
  have h2 : t % MS_PER_DAY < MS_PER_DAY := Nat.mod_lt t (by decide)
  unfold endOfDay MS_PER_DAY at *
  omega

theorem le_endOfMinute (t : Nat) : t ≤ endOfMinute t := by
  have h := Nat.div_add_mod t MS_PER_MINUTE
  have h2 : t % MS_PER_MINUTE < MS_PER_MINUTE := Nat.mod_lt t (by decide)
  unfold endOfMinute MS_PER_MINUTE at *
  omega

/-- The quantized window starts no later than the requested window. -/
theorem cacheFriendly_start_le (now : Nat) (w : TWindow) (endCap : Bool) :
    (convertRangeToCacheFriendlyTimes now w endCap).start ≤ w.start := by
  unfold convertRangeToCacheFriendlyTimes
  by_cases h : (w.start / MS_PER_HOUR == w.stop / MS_PER_HOUR) = true <;>
    simp [h, startOfHour_le, startOfDay_le]

/-- With the end cap, the quantized end is at least the window end capped
to `now`. -/
theorem cacheFriendly_stop_ge (now : Nat) (w : TWindow) :
    min w.stop now ≤ (convertRangeToCacheFriendlyTimes now w true).stop := by
  unfold convertRangeToCacheFriendlyTimes
  by_cases h : (w.start / MS_PER_HOUR == w.stop / MS_PER_HOUR) = true
  · simp only [h, if_true]
    calc min w.stop now ≤ min (endOfHour w.stop) now :=
          min_le_min (le_endOfHour w.stop) (le_refl now)
      _ ≤ endOfMinute (min (endOfHour w.stop) now) := le_endOfMinute _
      _ = endOfMinute (capEndDate now (endOfHour w.stop)) := rfl
  · simp only [h, if_false]
    calc min w.stop now ≤ min (endOfDay w.stop) now :=
          min_le_min (le_endOfDay w.stop) (le_refl now)
      _ ≤ endOfMinute (min (endOfDay w.stop) now) := le_endOfMinute _
      _ = endOfMinute (capEndDate now (endOfDay w.stop)) := rfl

/-! ## Range coverage trackers -/

/-- A stored interval of a `MemoryRangeSet` (source field names
`start`/`end`; `end` is renamed `stop`). -/
structure NRange where
  start : Nat
  stop : Nat
  deriving DecidableEq, Repr

/-- A stored interval of an `ExpiringMemoryRangeSet`: a range plus the
instant at which it expires. -/
structure ExpiringRange where
  start : Nat
  stop : Nat
  expires : Nat
  deriving DecidableEq, Repr

/-- Modelled from the spec: `MemoryRangeSet` (RangeCoverageTracker, §4.1)
from the absent file `src/camera-manager/range.ts`: a merged set of
disjoint time intervals, no expiry. -/
structure MemoryRangeSet where
  ranges : List NRange
  deriving DecidableEq, Repr

/-- Modelled from the spec: `ExpiringMemoryRangeSet`
(ExpiringRangeCoverageTracker, §4.2) from the absent file
`src/camera-manager/range.ts`.  Expiry is modelled logically — every
query ignores entries with `expiresAt <= now` — which is observationally
equivalent to the spec's lazy in-place pruning. -/
structure ExpiringMemoryRangeSet where
  ranges : List ExpiringRange
  deriving DecidableEq, Repr

/-- Does interval `q` overlap or touch interval `r`? (touching = zero-gap
adjacency, spec §4.1). -/
def nrangeTouches (r q : NRange) : Bool :=
  q.start ≤ r.stop && r.start ≤ q.stop

/-- Modelled from the spec: `add(range)` inserts `range`, merging it with
every existing interval that overlaps or touches it (merging is
transitive: a bridging range collapses all parties into one). -/
def MemoryRangeSet.add (s : MemoryRangeSet) (r : NRange) : MemoryRangeSet :=
  let touching := s.ranges.filter (nrangeTouches r)
  let rest := s.ranges.filter (fun q => !nrangeTouches r q)
  ⟨touching.foldl (fun acc q => ⟨min acc.start q.start, max acc.stop q.stop⟩) r :: rest⟩

/-- Modelled from the spec: `hasCoverage(range)` is true iff `range` is
fully contained in a stored interval (after eager merging a single
contiguous check suffices, spec §4.1). -/
def MemoryRangeSet.hasCoverage (s : MemoryRangeSet) (q : NRange) : Bool :=
  s.ranges.any (fun e => e.start ≤ q.start && q.stop ≤ e.stop)

/-- Modelled from the spec: removes all intervals. -/
def MemoryRangeSet.clear (_ : MemoryRangeSet) : MemoryRangeSet := ⟨[]⟩

def erangeTouches (r q : ExpiringRange) : Bool :=
  q.start ≤ r.stop && r.start ≤ q.stop

/-- Modelled from the spec: `add` for the expiring set; overlapping or
touching entries merge, and a merged entry takes the *latest* (max)
`expiresAt` of its parts (spec §4.2). -/
def ExpiringMemoryRangeSet.add (s : ExpiringMemoryRangeSet) (r : ExpiringRange) :
    ExpiringMemoryRangeSet :=
  let touching := s.ranges.filter (erangeTouches r)
  let rest := s.ranges.filter (fun q => !erangeTouches r q)
  ⟨touching.foldl
      (fun acc q => ⟨min acc.start q.start, max acc.stop q.stop, max acc.expires q.expires⟩)
      r :: rest⟩

/-- Modelled from the spec: coverage over the expiring set; entries with
`expiresAt <= now` are logically absent (spec §4.2). -/
def ExpiringMemoryRangeSet.hasCoverage (s : ExpiringMemoryRangeSet) (now : Nat)
    (q : NRange) : Bool :=
  s.ranges.any (fun e => now < e.expires && e.start ≤ q.start && q.stop ≤ e.stop)

/-- Modelled from the spec: removes all entries. -/
def ExpiringMemoryRangeSet.clear (_ : ExpiringMemoryRangeSet) : ExpiringMemoryRangeSet := ⟨[]⟩

/-! ### Tracker lemmas: an added range is covered afterwards -/

theorem nrange_merge_foldl (L : List NRange) :
    ∀ acc : NRange,
      (L.foldl (fun acc q => NRange.mk (min acc.start q.start) (max acc.stop q.stop)) acc).start
          ≤ acc.start ∧
      acc.stop ≤
        (L.foldl (fun acc q => NRange.mk (min acc.start q.start) (max acc.stop q.stop)) acc).stop := by
  induction L with
  | nil => intro acc; exact ⟨le_refl _, le_refl _⟩
  | cons q L ih =>
    intro acc
    have h := ih ⟨min acc.start q.start, max acc.stop q.stop⟩
    refine ⟨le_trans h.1 ?_, le_trans ?_ h.2⟩
    · exact min_le_left _ _
    · exact le_max_left _ _

theorem hasCoverage_add (s : MemoryRangeSet) (r q : NRange)
    (hstart : r.start ≤ q.start) (hstop : q.stop ≤ r.stop) :
    (s.add r).hasCoverage q = true := by
  unfold MemoryRangeSet.add MemoryRangeSet.hasCoverage
  simp only [List.any_cons, Bool.or_eq_true]
  left
  have h := nrange_merge_foldl (s.ranges.filter (nrangeTouches r)) r
  simp only [Bool.and_eq_true, decide_eq_true_eq]
  exact ⟨le_trans h.1 hstart, le_trans hstop h.2⟩

theorem erange_merge_foldl (L : List ExpiringRange) :
    ∀ acc : ExpiringRange,
      (L.foldl
          (fun acc q =>
            ExpiringRange.mk (min acc.start q.start) (max acc.stop q.stop)
              (max acc.expires q.expires)) acc).start ≤ acc.start ∧
      acc.stop ≤
        (L.foldl
            (fun acc q =>
              ExpiringRange.mk (min acc.start q.start) (max acc.stop q.stop)
                (max acc.expires q.expires)) acc).stop ∧
      acc.expires ≤
        (L.foldl
            (fun acc q =>
              ExpiringRange.mk (min acc.start q.start) (max acc.stop q.stop)
                (max acc.expires q.expires)) acc).expires := by
  induction L with
  | nil => intro acc; exact ⟨le_refl _, le_refl _, le_refl _⟩
  | cons q L ih =>
    intro acc
    have h := ih ⟨min acc.start q.start, max acc.stop q.stop, max acc.expires q.expires⟩
    refine ⟨le_trans h.1 (min_le_left _ _), le_trans (le_max_left _ _) h.2.1,
      le_trans (le_max_left _ _) h.2.2⟩

theorem hasCoverage_add_expiring (s : ExpiringMemoryRangeSet) (r : ExpiringRange)
    (now : Nat) (q : NRange) (hstart : r.start ≤ q.start) (hstop : q.stop ≤ r.stop)
    (hfresh : now < r.expires) :
    (s.add r).hasCoverage now q = true := by
  unfold ExpiringMemoryRangeSet.add ExpiringMemoryRangeSet.hasCoverage
  simp only [List.any_cons, Bool.or_eq_true]
  left
  have h := erange_merge_foldl (s.ranges.filter (erangeTouches r)) r
  simp only [Bool.and_eq_true, decide_eq_true_eq]
  exact ⟨⟨lt_of_lt_of_le hfresh h.2.2, le_trans h.1 hstart⟩, le_trans hstop h.2.1⟩

/-! ## Items and media -/

/-- The vis-timeline item kinds used by the data source (source: the
string-valued `type` field). -/
inductive ItemType where
  | point
  | range
  | background
  deriving DecidableEq, Repr

/-- A media record as seen through `ViewMedia`'s accessors
(`getID`, `getCameraID`, `getStartTime`, `getEndTime`).  `getID` takes the
camera config into account; its result is folded into the `id` field. -/
structure ViewMedia where
  id : Option String
  cameraID : String
  startTime : Option Nat
  endTime : Option Nat
  deriving DecidableEq, Repr

/-- Source: `FrigateCardTimelineItem` (`timeline-source.ts`).  The `end`
field is renamed `endTime` (`end` is a Lean keyword); `start`/`end` are
epoch milliseconds. -/
structure FrigateCardTimelineItem where
  id : String
  group : String
  content : String
  start : Nat
  endTime : Option Nat
  type : ItemType
  media : Option ViewMedia
  deriving DecidableEq, Repr

/-- Source: `RecordingSegment` with `start_time`/`end_time` in
epoch seconds. -/
structure RecordingSegment where
  id : String
  start_time : Nat
  end_time : Nat
  deriving DecidableEq, Repr

/-- The end used by the segment compressor; recordings always carry an
end, events without one count as zero-length. -/
def itemEnd (it : FrigateCardTimelineItem) : Nat := it.endTime.getD it.start

/-- Sort order of the segment compressor: `start` ascending, ties broken
by `end` ascending (spec §4.4 step 1). -/
def compressLE (a b : FrigateCardTimelineItem) : Prop :=
  a.start < b.start ∨ (a.start = b.start ∧ itemEnd a ≤ itemEnd b)

instance : DecidableRel compressLE := fun a b => by
  unfold compressLE; infer_instance

instance : IsTotal FrigateCardTimelineItem compressLE :=
  ⟨fun a b => by
    unfold compressLE
    rcases Nat.lt_trichotomy a.start b.start with h | h | h
    · exact Or.inl (Or.inl h)
    · rcases Nat.le_total (itemEnd a) (itemEnd b) with h2 | h2
      · exact Or.inl (Or.inr ⟨h, h2⟩)
      · exact Or.inr (Or.inr ⟨h.symm, h2⟩)
    · exact Or.inr (Or.inl h)⟩

instance : IsTrans FrigateCardTimelineItem compressLE :=
  ⟨fun a b c hab hbc => by
    unfold compressLE at *
    rcases hab with h1 | ⟨h1, h1e⟩ <;> rcases hbc with h2 | ⟨h2, h2e⟩
    · exact Or.inl (lt_trans h1 h2)
    · exact Or.inl (h2 ▸ h1)
    · exact Or.inl (h1 ▸ h2)
    · exact Or.inr ⟨h1.trans h2, h1e.trans h2e⟩⟩

/-- The merge walk of the segment compressor (spec §4.4 step 2): extend
the current block while the next item starts within the tolerance of the
block's end, else close the block and start a new one. -/
def compressWalk (tolMs : Nat) (cur : FrigateCardTimelineItem) :
    List FrigateCardTimelineItem → List FrigateCardTimelineItem
  | [] => [cur]
  | y :: ys =>
    if y.start ≤ itemEnd cur + tolMs then
      compressWalk tolMs { cur with endTime := some (max (itemEnd cur) (itemEnd y)) } ys
    else
      cur :: compressWalk tolMs y ys

/-- Modelled from the spec: `compressRanges` (SegmentCompressor, §4.4)
from the absent file `src/camera-manager/range.ts`: sort by start (ties by
end), then merge runs whose gaps are within the tolerance.  The tolerance
argument is in seconds (as passed by `timeline-source.ts`) and is applied
to the epoch-millisecond items after conversion. -/
def compressRanges (items : List FrigateCardTimelineItem) (toleranceSeconds : Nat) :
    List FrigateCardTimelineItem :=
  match List.insertionSort compressLE items with
  | [] => []
  | x :: xs => compressWalk (toleranceSeconds * 1000) x xs

/-- Every block produced by the merge walk inherits its `group` and `type`
from the starting block or from one of the walked items. -/
theorem compressWalk_group_type (tolMs : Nat) :
    ∀ (L : List FrigateCardTimelineItem) (cur y : FrigateCardTimelineItem),
      y ∈ compressWalk tolMs cur L →
      (y.group = cur.group ∧ y.type = cur.type) ∨
        ∃ x ∈ L, y.group = x.group ∧ y.type = x.type := by
  intro L
  induction L with
  | nil =>
    intro cur y hy
    simp only [compressWalk, List.mem_singleton] at hy
    exact Or.inl ⟨hy ▸ rfl, hy ▸ rfl⟩
  | cons z zs ih =>
    intro cur y hy
    unfold compressWalk at hy
    by_cases hgap : z.start ≤ itemEnd cur + tolMs
    · simp only [hgap, if_true] at hy
      rcases ih _ y hy with h | ⟨x, hx, hgx⟩
      · exact Or.inl h
      · exact Or.inr ⟨x, List.mem_cons_of_mem z hx, hgx⟩
    · simp only [hgap, if_false, List.mem_cons] at hy
      rcases hy with h | h
      · exact Or.inl ⟨h ▸ rfl, h ▸ rfl⟩
      · rcases ih z y h with hz | ⟨x, hx, hgx⟩
        · exact Or.inr ⟨z, List.mem_cons_self z zs, hz⟩
        · exact Or.inr ⟨x, List.mem_cons_of_mem z hx, hgx⟩

/-- Every compressed block inherits its `group` and `type` from one of the
input items (spec §4.4 step 3). -/
theorem compressRanges_group_type (items : List FrigateCardTimelineItem)
    (tol : Nat) (y : FrigateCardTimelineItem) (hy : y ∈ compressRanges items tol) :
    ∃ x ∈ items, y.group = x.group ∧ y.type = x.type := by
  unfold compressRanges at hy
  rcases hsort : List.insertionSort compressLE items with _ | ⟨x, xs⟩
  · rw [hsort] at hy; simp at hy
  · rw [hsort] at hy
    have hmem : ∀ z : FrigateCardTimelineItem, z ∈ x :: xs → z ∈ items := by
      intro z hz
      have := (List.perm_insertionSort compressLE items).mem_iff.mp (hsort ▸ hz)
      exact this
    rcases compressWalk_group_type _ xs x y hy with h | ⟨x', hx', hgx⟩
    · exact ⟨x, hmem x (List.mem_cons_self x xs), h⟩
    · exact ⟨x', hmem x' (List.mem_cons_of_mem x hx'), hgx⟩

/-! ## The timeline data source (`src/utils/timeline-source.ts`) -/

/-- Source constant `TIMELINE_FRESHNESS_TOLERANCE_SECONDS`. -/
def TIMELINE_FRESHNESS_TOLERANCE_SECONDS : Nat := 30

/-- Source constant
`TIMELINE_RECORDING_SEGMENT_CONSECUTIVE_TOLERANCE_SECONDS`. -/
def TIMELINE_RECORDING_SEGMENT_CONSECUTIVE_TOLERANCE_SECONDS : Nat := 60

/-- The mutable state of a `TimelineDataSource`: the vis-data `DataSet`
(modelled as a list of items in insertion order), the recording coverage
tracker `_recordingRanges` and the event coverage tracker
`_eventRanges`. -/
structure TimelineState where
  dataset : List FrigateCardTimelineItem
  recordingRanges : MemoryRangeSet
  eventRanges : ExpiringMemoryRangeSet
  deriving DecidableEq, Repr

/-- JavaScript truthiness of the event id in
`if (id && startTime)`: a missing id or the empty string is falsy. -/
def jsTruthyId : Option String → Bool
  | none => false
  | some s => !(s == "")

/-- The item produced by the event upsert in `_refreshEvents`, merged
with the previous item of the same id when one exists (`old`).  The
update object carries every field except `end`, which is present only
when the media has an end time — vis-data's shallow merge then keeps a
pre-existing `end` on an end-less update. -/
def eventUpdateItem (m : ViewMedia) (i : String) (st : Nat)
    (old : Option FrigateCardTimelineItem) : FrigateCardTimelineItem :=
  { id := i, group := m.cameraID, content := "", media := some m, start := st,
    type := if m.endTime.isSome then ItemType.range else ItemType.point,
    endTime := match m.endTime with
      | some e => some e
      | none => old.bind (·.endTime) }

/-- vis-data `DataSet.update` (upsert): if an item with the same id
exists it is shallow-merged with the update object, else the update
object is appended. -/
def datasetUpdateEvent (ds : List FrigateCardTimelineItem) (m : ViewMedia)
    (i : String) (st : Nat) : List FrigateCardTimelineItem :=
  if ds.any (fun x => x.id == i) then
    ds.map (fun x => if x.id == i then eventUpdateItem m i st (some x) else x)
  else
    ds ++ [eventUpdateItem m i st none]

/-- The body of the per-media loop of `_refreshEvents`: records with a
truthy id and a start time are upserted (`kind` = `range` iff an end time
exists); all others are skipped. -/
def ingestEvent (ds : List FrigateCardTimelineItem) (m : ViewMedia) :
    List FrigateCardTimelineItem :=
  match m.id, m.startTime with
  | some i, some st => if i == "" then ds else datasetUpdateEvent ds m i st
  | _, _ => ds

/-- `_refreshEvents`.  The fetch outcome of
`executeMediaQuery` is an oracle argument (`Except` models a rejected
promise, which occurs at the `await`, before any state mutation).
Returns the new state, whether a fetch was issued, and whether the leg's
promise rejected. -/
def refreshEvents (now : Nat) (w : TWindow)
    (fetch : Except Unit (List ViewMedia)) (s : TimelineState) :
    TimelineState × Bool × Bool :=
  if s.eventRanges.hasCoverage now
      ⟨w.start, capEndDate now w.stop - TIMELINE_FRESHNESS_TOLERANCE_SECONDS * 1000⟩ then
    (s, false, false)
  else
    let cacheFriendlyWindow := convertRangeToCacheFriendlyTimes now w true
    match fetch with
    | .error _ => (s, true, true)
    | .ok results =>
      ({ s with
          dataset := results.foldl ingestEvent s.dataset,
          eventRanges := s.eventRanges.add
            ⟨cacheFriendlyWindow.start, cacheFriendlyWindow.stop,
              now + TIMELINE_FRESHNESS_TOLERANCE_SECONDS * 1000⟩ },
        true, false)

/-- `convertSegmentToRecording` (local helper of `_refreshRecordings`). -/
def convertSegmentToRecording (cameraID : String) (segment : RecordingSegment) :
    FrigateCardTimelineItem :=
  { id := "recording-" ++ cameraID ++ "-" ++ segment.id,
    group := cameraID,
    start := segment.start_time * 1000,
    endTime := some (segment.end_time * 1000),
    content := "",
    type := ItemType.background,
    media := none }

/-- `getExistingRecordingsForCameraID`: background items of the camera
that carry an end. -/
def getExistingRecordingsForCameraID (ds : List FrigateCardTimelineItem)
    (cameraID : String) : List FrigateCardTimelineItem :=
  ds.filter (fun it =>
    it.type == ItemType.background && it.group == cameraID && it.endTime.isSome)

/-- `deleteRecordingsForCameraID`: removes every background item of the
camera. -/
def deleteRecordingsForCameraID (ds : List FrigateCardTimelineItem)
    (cameraID : String) : List FrigateCardTimelineItem :=
  ds.filter (fun it => !(it.type == ItemType.background && it.group == cameraID))

/-- One iteration of the per-camera loop of `_refreshRecordings`: merge
the existing background items with the freshly converted segments,
compress, then delete-all / insert-all for that camera. -/
def processCameraSegments (ds : List FrigateCardTimelineItem) (cameraID : String)
    (segments : List RecordingSegment) : List FrigateCardTimelineItem :=
  let existingRecordings := getExistingRecordingsForCameraID ds cameraID
  let mergedRecordings :=
    existingRecordings ++ segments.map (convertSegmentToRecording cameraID)
  let compressedRecordings :=
    compressRanges mergedRecordings TIMELINE_RECORDING_SEGMENT_CONSECUTIVE_TOLERANCE_SECONDS
  deleteRecordingsForCameraID ds cameraID ++ compressedRecordings

/-- The grouping loop of `_refreshRecordings` that builds `newSegments`
(a JS `Map`, which preserves first-insertion order) from the per-query
results. -/
def insertGroup (acc : List (String × List RecordingSegment)) (cameraID : String)
    (segments : List RecordingSegment) : List (String × List RecordingSegment) :=
  if acc.any (fun p => p.1 == cameraID) then
    acc.map (fun p => if p.1 == cameraID then (p.1, p.2 ++ segments) else p)
  else
    acc ++ [(cameraID, segments)]

def groupSegments (results : List (String × List RecordingSegment)) :
    List (String × List RecordingSegment) :=
  results.foldl (fun acc p => insertGroup acc p.1 p.2) []

/-- `_refreshRecordings`.  The per-query results of
`getRecordingSegments` are the oracle argument, given as
`(query.cameraID, result.segments)` pairs. -/
def refreshRecordings (now : Nat) (w : TWindow)
    (fetch : Except Unit (List (String × List RecordingSegment)))
    (s : TimelineState) : TimelineState × Bool × Bool :=
  if s.recordingRanges.hasCoverage
      ⟨w.start, capEndDate now w.stop - TIMELINE_FRESHNESS_TOLERANCE_SECONDS * 1000⟩ then
    (s, false, false)
  else
    let cacheFriendlyWindow := convertRangeToCacheFriendlyTimes now w true
    match fetch with
    | .error _ => (s, true, true)
    | .ok results =>
      let newSegments := groupSegments results
      ({ s with
          dataset := newSegments.foldl (fun ds p => processCameraSegments ds p.1 p.2) s.dataset,
          recordingRanges := s.recordingRanges.add
            ⟨cacheFriendlyWindow.start, cacheFriendlyWindow.stop⟩ },
        true, false)

/-- The observable outcome of one `refresh` call: the final state,
whether each leg issued a remote fetch, and whether the returned promise
rejected. -/
structure RefreshOutcome where
  state : TimelineState
  eventsFetched : Bool
  recordingsFetched : Bool
  result : Except Unit Unit

/-- The `Promise.all` body of `refresh`: both legs always run to
completion (a rejection does not cancel the sibling leg), and the joined
promise rejects iff either leg rejected. -/
def promiseAllLegs (now : Nat) (w : TWindow)
    (eventsFetch : Except Unit (List ViewMedia))
    (recordingsFetch : Except Unit (List (String × List RecordingSegment)))
    (s : TimelineState) : RefreshOutcome :=
  let ev := refreshEvents now w eventsFetch s
  let rec' := refreshRecordings now w recordingsFetch ev.1
  { state := rec'.1,
    eventsFetched := ev.2.1,
    recordingsFetched := rec'.2.1,
    result := if ev.2.2 || rec'.2.2 then .error () else .ok () }

/-- `TimelineDataSource.refresh`: the `Promise.all` of the two legs inside
`try`/`catch`; the `catch` logs and swallows the error. -/
def refresh (now : Nat) (w : TWindow)
    (eventsFetch : Except Unit (List ViewMedia))
    (recordingsFetch : Except Unit (List (String × List RecordingSegment)))
    (s : TimelineState) : RefreshOutcome :=
  let o := promiseAllLegs now w eventsFetch recordingsFetch s
  match o.result with
  | .error _ => { o with result := .ok () }
  | .ok _ => o

/-- `TimelineDataSource.clearEvents`: clears the event coverage and
removes every non-background item. -/
def clearEvents (s : TimelineState) : TimelineState :=
  { s with
    eventRanges := s.eventRanges.clear,
    dataset := s.dataset.filter (fun it => it.type == ItemType.background) }

/-! ## MediaSorter (`sortMedia`) -/

/-- Ascending order on optional ids used for records without a start
time: a missing id sorts first, otherwise lexicographic on the string. -/
def idLE : Option String → Option String → Prop
  | none, _ => True
  | some _, none => False
  | some i, some j => i ≤ j

instance : DecidableRel idLE := fun a b => by
  unfold idLE
  match a, b with
  | none, _ => exact inferInstanceAs (Decidable True)
  | some _, none => exact inferInstanceAs (Decidable False)
  | some i, some j => exact inferInstanceAs (Decidable (i ≤ j))

/-- Modelled from the spec: the MediaSorter ordering (§4.5).  Primary key
`startTime` ascending; records without a `startTime` come after all
records that have one and are ordered among themselves by `id`
ascending. -/
def mediaLE (a b : ViewMedia) : Prop :=
  match a.startTime, b.startTime with
  | some s, some t => s ≤ t
  | some _, none => True
  | none, some _ => False
  | none, none => idLE a.id b.id

instance : DecidableRel mediaLE := fun a b => by
  unfold mediaLE
  match a.startTime, b.startTime with
  | some s, some t => exact inferInstanceAs (Decidable (s ≤ t))
  | some _, none => exact inferInstanceAs (Decidable True)
  | none, some _ => exact inferInstanceAs (Decidable False)
  | none, none => exact inferInstanceAs (Decidable (idLE a.id b.id))

instance : IsTotal ViewMedia mediaLE :=
  ⟨fun a b => by
    unfold mediaLE
    match ha : a.startTime, hb : b.startTime with
    | some s, some t => exact Nat.le_total s t
    | some _, none => exact Or.inl trivial
    | none, some _ => exact Or.inr trivial
    | none, none =>
      unfold idLE
      match a.id, b.id with
      | none, _ => exact Or.inl trivial
      | some _, none => exact Or.inr trivial
      | some i, some j => exact le_total i j⟩

instance : IsTrans ViewMedia mediaLE :=
  ⟨fun a b c hab hbc => by
    unfold mediaLE at *
    rcases a with ⟨aid, _, ast, _⟩
    rcases b with ⟨bid, _, bst, _⟩
    rcases c with ⟨cid, _, cst, _⟩
    rcases ast with _ | s
    · rcases bst with _ | t
      · rcases cst with _ | u
        · unfold idLE at *
          rcases aid with _ | i
          · trivial
          · rcases bid with _ | j
            · exact hab.elim
            · rcases cid with _ | k
              · exact hbc.elim
              · exact le_trans hab hbc
        · exact hbc.elim
      · exact hab.elim
    · rcases bst with _ | t
      · rcases cst with _ | u
        · trivial
        · exact hbc.elim
      · rcases cst with _ | u
        · trivial
        · exact le_trans hab hbc⟩

/-- Modelled from the spec: the duplicate rule (§3): two records are
duplicates when both ids are non-null and equal; when either id is null,
only full structural equality makes them duplicates. -/
def isDuplicateMedia (a b : ViewMedia) : Bool :=
  match a.id, b.id with
  | some i, some j => i == j
  | _, _ => a == b

/-- The dedup walk: drop a record iff a duplicate of it has already been
kept (so the first occurrence survives). -/
def dedupMediaGo (seen : List ViewMedia) : List ViewMedia → List ViewMedia
  | [] => []
  | x :: xs =>
    if seen.any (fun s => isDuplicateMedia s x) then dedupMediaGo seen xs
    else x :: dedupMediaGo (x :: seen) xs

/-- Modelled from the spec: `sortMedia` (MediaSorter, §4.5) from the
absent file `src/camera-manager/utils.ts`: sort by the MediaSorter order,
then collapse duplicates keeping the first occurrence.  Being a pure
function, it trivially never mutates its input. -/
def sortMedia (l : List ViewMedia) : List ViewMedia :=
  dedupMediaGo [] (List.insertionSort mediaLE l)

theorem isDuplicateMedia_refl (a : ViewMedia) : isDuplicateMedia a a = true := by
  unfold isDuplicateMedia
  match h : a.id with
  | some i => simp
  | none => simp

/-- Every record kept by the dedup walk is non-duplicate with everything
already seen. -/
theorem dedupMediaGo_nondup_seen :
    ∀ (l seen : List ViewMedia) (y : ViewMedia), y ∈ dedupMediaGo seen l →
      ∀ s ∈ seen, isDuplicateMedia s y = false := by
  intro l
  induction l with
  | nil => intro seen y hy; simp [dedupMediaGo] at hy
  | cons x xs ih =>
    intro seen y hy s hs
    unfold dedupMediaGo at hy
    by_cases hdup : seen.any (fun s => isDuplicateMedia s x) = true
    · rw [if_pos hdup] at hy
      exact ih seen y hy s hs
    · rw [if_neg hdup] at hy
      rcases List.mem_cons.mp hy with h | h
      · subst h
        cases hd : isDuplicateMedia s y
        · rfl
        · exact absurd (List.any_eq_true.mpr ⟨s, hs, hd⟩) hdup
      · exact ih (x :: seen) y h s (List.mem_cons_of_mem x hs)

theorem dedupMediaGo_pairwise :
    ∀ (l seen : List ViewMedia),
      (dedupMediaGo seen l).Pairwise (fun a b => isDuplicateMedia a b = false) := by
  intro l
  induction l with
  | nil => intro seen; simp [dedupMediaGo]
  | cons x xs ih =>
    intro seen
    unfold dedupMediaGo
    by_cases hdup : seen.any (fun s => isDuplicateMedia s x) = true
    · rw [if_pos hdup]; exact ih seen
    · rw [if_neg hdup]
      refine List.Pairwise.cons ?_ (ih (x :: seen))
      intro y hy
      exact dedupMediaGo_nondup_seen xs (x :: seen) y hy x (List.mem_cons_self x seen)

theorem dedupMediaGo_sublist :
    ∀ (l seen : List ViewMedia), (dedupMediaGo seen l).Sublist l := by
  intro l
  induction l with
  | nil => intro seen; simp [dedupMediaGo]
  | cons x xs ih =>
    intro seen
    unfold dedupMediaGo
    by_cases hdup : seen.any (fun s => isDuplicateMedia s x) = true
    · rw [if_pos hdup]; exact (ih seen).cons x
    · rw [if_neg hdup]; exact (ih (x :: seen)).cons₂ x

/-- Every processed record has a duplicate representative among the seen
records or the kept output. -/
theorem dedupMediaGo_complete :
    ∀ (l seen : List ViewMedia) (x : ViewMedia), x ∈ l →
      (∃ s ∈ seen, isDuplicateMedia s x = true) ∨
        ∃ y ∈ dedupMediaGo seen l, isDuplicateMedia y x = true := by
  intro l
  induction l with
  | nil => intro seen x hx; simp at hx
  | cons z zs ih =>
    intro seen x hx
    unfold dedupMediaGo
    by_cases hdup : seen.any (fun s => isDuplicateMedia s z) = true
    · rw [if_pos hdup]
      rcases List.mem_cons.mp hx with h | h
      · subst h
        rcases List.any_eq_true.mp hdup with ⟨s, hs, ht⟩
        exact Or.inl ⟨s, hs, ht⟩
      · exact ih seen x h
    · rw [if_neg hdup]
      rcases List.mem_cons.mp hx with h | h
      · subst h
        exact Or.inr ⟨x, List.mem_cons_self _ _, isDuplicateMedia_refl x⟩
      · rcases ih (z :: seen) x h with ⟨s, hs, ht⟩ | ⟨y, hy, ht⟩
        · rcases List.mem_cons.mp hs with hsz | hsz
          · exact Or.inr ⟨z, List.mem_cons_self _ _, hsz ▸ ht⟩
          · exact Or.inl ⟨s, hsz, ht⟩
        · exact Or.inr ⟨y, List.mem_cons_of_mem z hy, ht⟩

/-- A record with no duplicate before it in the sorted order is kept:
the *first* occurrence of each duplicate class survives. -/
theorem dedupMediaGo_keeps_first :
    ∀ (l1 : List ViewMedia) (seen : List ViewMedia) (x : ViewMedia)
      (l2 : List ViewMedia),
      (∀ y ∈ seen, isDuplicateMedia y x = false) →
      (∀ y ∈ l1, isDuplicateMedia y x = false) →
      x ∈ dedupMediaGo seen (l1 ++ x :: l2) := by
  intro l1
  induction l1 with
  | nil =>
    intro seen x l2 hseen _
    have hfalse : seen.any (fun s => isDuplicateMedia s x) = false := by
      cases hany : seen.any fun s => isDuplicateMedia s x
      · rfl
      · rcases List.any_eq_true.mp hany with ⟨s, hs, hd⟩
        rw [hseen s hs] at hd
        cases hd
    rw [List.nil_append]
    unfold dedupMediaGo
    simp only [hfalse, Bool.false_eq_true, if_false]
    exact List.mem_cons_self _ _
  | cons z zs ih =>
    intro seen x l2 hseen hl1
    rw [List.cons_append]
    unfold dedupMediaGo
    by_cases hdup : seen.any (fun s => isDuplicateMedia s z) = true
    · rw [if_pos hdup]
      exact ih seen x l2 hseen (fun y hy => hl1 y (List.mem_cons_of_mem z hy))
    · rw [if_neg hdup]
      refine List.mem_cons_of_mem z (ih (z :: seen) x l2 ?_
        (fun y hy => hl1 y (List.mem_cons_of_mem z hy)))
      intro y hy
      rcases List.mem_cons.mp hy with h | h
      · exact h ▸ hl1 z (List.mem_cons_self z zs)
      · exact hseen y h

/-! ## Frame lemmas for the aggregator -/

theorem refreshEvents_recordingRanges (now : Nat) (w : TWindow)
    (fetch : Except Unit (List ViewMedia)) (s : TimelineState) :
    ((refreshEvents now w fetch s).1).recordingRanges = s.recordingRanges := by
  unfold refreshEvents
  split
  · rfl
  · cases fetch <;> rfl

theorem refreshRecordings_eventRanges (now : Nat) (w : TWindow)
    (fetch : Except Unit (List (String × List RecordingSegment))) (s : TimelineState) :
    ((refreshRecordings now w fetch s).1).eventRanges = s.eventRanges := by
  unfold refreshRecordings
  split
  · rfl
  · cases fetch <;> rfl

theorem refreshEvents_error_state (now : Nat) (w : TWindow) (e : Unit)
    (s : TimelineState) : (refreshEvents now w (.error e) s).1 = s := by
  unfold refreshEvents
  split <;> rfl

theorem refreshRecordings_error_state (now : Nat) (w : TWindow) (e : Unit)
    (s : TimelineState) : (refreshRecordings now w (.error e) s).1 = s := by
  unfold refreshRecordings
  split <;> rfl

/-- Everything fed to the compressor by `processCameraSegments` is a
background item of the processed camera. -/
theorem merged_mem_bg (ds : List FrigateCardTimelineItem) (c : String)
    (segs : List RecordingSegment) (x : FrigateCardTimelineItem)
    (hx : x ∈ getExistingRecordingsForCameraID ds c ++
        segs.map (convertSegmentToRecording c)) :
    x.type = ItemType.background ∧ x.group = c := by
  rcases List.mem_append.mp hx with h | h
  · have := List.mem_filter.mp h
    simp only [Bool.and_eq_true, beq_iff_eq] at this
    exact ⟨this.2.1.1, this.2.1.2⟩
  · rcases List.mem_map.mp h with ⟨seg, _, rfl⟩
    exact ⟨rfl, rfl⟩

/-- Every block inserted by `processCameraSegments` is a background item
of the processed camera. -/
theorem compressed_mem_bg (ds : List FrigateCardTimelineItem) (c : String)
    (segs : List RecordingSegment) (y : FrigateCardTimelineItem)
    (hy : y ∈ compressRanges
        (getExistingRecordingsForCameraID ds c ++ segs.map (convertSegmentToRecording c))
        TIMELINE_RECORDING_SEGMENT_CONSECUTIVE_TOLERANCE_SECONDS) :
    y.type = ItemType.background ∧ y.group = c := by
  rcases compressRanges_group_type _ _ y hy with ⟨x, hx, hg, ht⟩
  rcases merged_mem_bg ds c segs x hx with ⟨hxt, hxg⟩
  exact ⟨ht.trans hxt, hg.trans hxg⟩

/-- A filter that never selects background items of the processed camera
passes through `processCameraSegments` unchanged. -/
theorem processCameraSegments_filter (p : FrigateCardTimelineItem → Bool)
    (ds : List FrigateCardTimelineItem) (c : String) (segs : List RecordingSegment)
    (hp : ∀ it, it.type = ItemType.background → it.group = c → p it = false) :
    (processCameraSegments ds c segs).filter p = ds.filter p := by
  unfold processCameraSegments
  rw [List.filter_append]
  have h2 : (compressRanges
      (getExistingRecordingsForCameraID ds c ++ segs.map (convertSegmentToRecording c))
      TIMELINE_RECORDING_SEGMENT_CONSECUTIVE_TOLERANCE_SECONDS).filter p = [] := by
    refine List.filter_eq_nil_iff.mpr (fun a ha => ?_)
    rcases compressed_mem_bg ds c segs a ha with ⟨ht, hg⟩
    simp [hp a ht hg]
  rw [h2, List.append_nil]
  unfold deleteRecordingsForCameraID
  rw [List.filter_filter]
  refine List.filter_congr (fun a _ => ?_)
  cases hpa : p a
  · simp
  · have hbg : (a.type == ItemType.background && a.group == c) = false := by
      cases htg : (a.type == ItemType.background && a.group == c)
      · rfl
      · simp only [Bool.and_eq_true, beq_iff_eq] at htg
        rw [hp a htg.1 htg.2] at hpa
        cases hpa
    simp [hbg]

/-- On the camera it processes, `processCameraSegments` leaves exactly the
compressed blocks as that camera's background items. -/
theorem processCameraSegments_filter_self (ds : List FrigateCardTimelineItem)
    (c : String) (segs : List RecordingSegment) :
    (processCameraSegments ds c segs).filter
        (fun it => it.type == ItemType.background && it.group == c) =
      compressRanges
        (getExistingRecordingsForCameraID ds c ++ segs.map (convertSegmentToRecording c))
        TIMELINE_RECORDING_SEGMENT_CONSECUTIVE_TOLERANCE_SECONDS := by
  unfold processCameraSegments
  rw [List.filter_append]
  have h1 : (deleteRecordingsForCameraID ds c).filter
      (fun it => it.type == ItemType.background && it.group == c) = [] := by
    unfold deleteRecordingsForCameraID
    rw [List.filter_filter]
    refine List.filter_eq_nil_iff.mpr (fun a _ => ?_)
    cases h : (a.type == ItemType.background && a.group == c) <;> simp [h]
  have h2 : (compressRanges
      (getExistingRecordingsForCameraID ds c ++ segs.map (convertSegmentToRecording c))
      TIMELINE_RECORDING_SEGMENT_CONSECUTIVE_TOLERANCE_SECONDS).filter
        (fun it => it.type == ItemType.background && it.group == c) = compressRanges
      (getExistingRecordingsForCameraID ds c ++ segs.map (convertSegmentToRecording c))
      TIMELINE_RECORDING_SEGMENT_CONSECUTIVE_TOLERANCE_SECONDS := by
    refine List.filter_eq_self.mpr (fun a ha => ?_)
    rcases compressed_mem_bg ds c segs a ha with ⟨ht, hg⟩
    simp [ht, hg]
  rw [h1, h2, List.nil_append]

/-- The per-camera loop preserves any filter that never selects a
background item of one of the processed cameras. -/
theorem foldProcess_filter (gs : List (String × List RecordingSegment)) :
    ∀ (ds : List FrigateCardTimelineItem) (p : FrigateCardTimelineItem → Bool),
      (∀ q ∈ gs, ∀ it : FrigateCardTimelineItem,
        it.type = ItemType.background → it.group = q.1 → p it = false) →
      (gs.foldl (fun ds q => processCameraSegments ds q.1 q.2) ds).filter p = ds.filter p := by
  induction gs with
  | nil => intro ds p _; rfl
  | cons q qs ih =>
    intro ds p hp
    rw [List.foldl_cons]
    rw [ih (processCameraSegments ds q.1 q.2) p
      (fun q' hq' => hp q' (List.mem_cons_of_mem q hq'))]
    exact processCameraSegments_filter p ds q.1 q.2 (hp q (List.mem_cons_self q qs))

theorem insertGroup_keys (acc : List (String × List RecordingSegment)) (c : String)
    (segs : List RecordingSegment) :
    (insertGroup acc c segs).map Prod.fst =
      if acc.any (fun p => p.1 == c) then acc.map Prod.fst
      else acc.map Prod.fst ++ [c] := by
  unfold insertGroup
  split
  · rw [List.map_map]
    refine List.map_congr_left (fun p _ => ?_)
    simp only [Function.comp_apply]
    split <;> rfl
  · simp

theorem groupSegments_aux_nodup (results : List (String × List RecordingSegment)) :
    ∀ acc : List (String × List RecordingSegment),
      (acc.map Prod.fst).Nodup →
      ((results.foldl (fun acc p => insertGroup acc p.1 p.2) acc).map Prod.fst).Nodup := by
  induction results with
  | nil => intro acc h; exact h
  | cons r rs ih =>
    intro acc h
    rw [List.foldl_cons]
    refine ih (insertGroup acc r.1 r.2) ?_
    rw [insertGroup_keys]
    split
    · exact h
    · next hnot =>
      have hcnot : r.1 ∉ acc.map Prod.fst := by
        intro hmem
        rcases List.mem_map.mp hmem with ⟨p, hp, hfst⟩
        exact hnot (List.any_eq_true.mpr ⟨p, hp, by simp [hfst]⟩)
      simp [List.nodup_append, h, hcnot]

/-- The camera keys of the grouped recording-segment map are distinct. -/
theorem groupSegments_keys_nodup (results : List (String × List RecordingSegment)) :
    ((groupSegments results).map Prod.fst).Nodup :=
  groupSegments_aux_nodup results [] (by simp)

/-- Running the per-camera loop on a grouped result with distinct keys
leaves, for a camera present in the map, exactly the compressed merge of
its old background items (those with an end) and the converted new
segments. -/
theorem foldProcess_bg (gs : List (String × List RecordingSegment)) :
    ∀ (ds : List FrigateCardTimelineItem) (c : String) (segs : List RecordingSegment),
      (gs.map Prod.fst).Nodup → (c, segs) ∈ gs →
      (gs.foldl (fun ds q => processCameraSegments ds q.1 q.2) ds).filter
          (fun it => it.type == ItemType.background && it.group == c) =
        compressRanges
          (getExistingRecordingsForCameraID ds c ++ segs.map (convertSegmentToRecording c))
          TIMELINE_RECORDING_SEGMENT_CONSECUTIVE_TOLERANCE_SECONDS := by
  induction gs with
  | nil => intro ds c segs _ h; simp at h
  | cons q qs ih =>
    intro ds c segs hnodup hmem
    rw [List.map_cons] at hnodup
    have hnd := List.nodup_cons.mp hnodup
    rw [List.foldl_cons]
    rcases List.mem_cons.mp hmem with h | h
    · subst h
      rw [foldProcess_filter qs _ _ ?_]
      · exact processCameraSegments_filter_self ds c segs
      · intro q' hq' it hbg hgrp
        have hne : q'.1 ≠ c := fun he =>
          hnd.1 (he ▸ List.mem_map.mpr ⟨q', hq', rfl⟩)
        have : (it.group == c) = false := by
          cases hgc : (it.group == c)
          · rfl
          · exact absurd (hgrp ▸ (beq_iff_eq.mp hgc)) hne
        simp [this]
    · have hq1 : q.1 ≠ c := fun he =>
        hnd.1 (he ▸ List.mem_map.mpr ⟨(c, segs), h, rfl⟩)
      rw [ih (processCameraSegments ds q.1 q.2) c segs hnd.2 h]
      have hex : getExistingRecordingsForCameraID (processCameraSegments ds q.1 q.2) c =
          getExistingRecordingsForCameraID ds c := by
        unfold getExistingRecordingsForCameraID
        refine processCameraSegments_filter _ ds q.1 q.2 (fun it hbg hgrp => ?_)
        have hgc : (it.group == c) = false := by
          cases hgcb : (it.group == c)
          · rfl
          · exact absurd (hgrp ▸ beq_iff_eq.mp hgcb) hq1
        simp [hgc]
      rw [hex]

/-! ## Leg behaviour lemmas -/

/-- The coverage query both legs issue: the visible window's end is first
capped to `now`, then pulled back by the freshness tolerance. -/
def coverageQuery (now : Nat) (w : TWindow) : NRange :=
  ⟨w.start, capEndDate now w.stop - TIMELINE_FRESHNESS_TOLERANCE_SECONDS * 1000⟩

theorem refreshEvents_skip (now : Nat) (w : TWindow)
    (fetch : Except Unit (List ViewMedia)) (s : TimelineState)
    (h : s.eventRanges.hasCoverage now (coverageQuery now w) = true) :
    refreshEvents now w fetch s = (s, false, false) := by
  unfold refreshEvents
  unfold coverageQuery at h
  simp [h]

theorem refreshRecordings_skip (now : Nat) (w : TWindow)
    (fetch : Except Unit (List (String × List RecordingSegment))) (s : TimelineState)
    (h : s.recordingRanges.hasCoverage (coverageQuery now w) = true) :
    refreshRecordings now w fetch s = (s, false, false) := by
  unfold refreshRecordings
  unfold coverageQuery at h
  simp [h]

theorem refreshEvents_fetched_iff (now : Nat) (w : TWindow)
    (fetch : Except Unit (List ViewMedia)) (s : TimelineState) :
    ((refreshEvents now w fetch s).2.1 = false ↔
      s.eventRanges.hasCoverage now (coverageQuery now w) = true) := by
  unfold refreshEvents coverageQuery
  by_cases h : s.eventRanges.hasCoverage now
      ⟨w.start, capEndDate now w.stop - TIMELINE_FRESHNESS_TOLERANCE_SECONDS * 1000⟩ = true
  · simp [h]
  · cases fetch <;> simp [h]

theorem refreshRecordings_fetched_iff (now : Nat) (w : TWindow)
    (fetch : Except Unit (List (String × List RecordingSegment))) (s : TimelineState) :
    ((refreshRecordings now w fetch s).2.1 = false ↔
      s.recordingRanges.hasCoverage (coverageQuery now w) = true) := by
  unfold refreshRecordings coverageQuery
  by_cases h : s.recordingRanges.hasCoverage
      ⟨w.start, capEndDate now w.stop - TIMELINE_FRESHNESS_TOLERANCE_SECONDS * 1000⟩ = true
  · simp [h]
  · cases fetch <;> simp [h]

theorem refreshEvents_ok_state (now : Nat) (w : TWindow) (evData : List ViewMedia)
    (s : TimelineState)
    (h : s.eventRanges.hasCoverage now (coverageQuery now w) = false) :
    (refreshEvents now w (.ok evData) s).1 =
      { s with
        dataset := evData.foldl ingestEvent s.dataset,
        eventRanges := s.eventRanges.add
          ⟨(convertRangeToCacheFriendlyTimes now w true).start,
            (convertRangeToCacheFriendlyTimes now w true).stop,
            now + TIMELINE_FRESHNESS_TOLERANCE_SECONDS * 1000⟩ } := by
  unfold refreshEvents
  unfold coverageQuery at h
  simp [h]

theorem refreshRecordings_ok_state (now : Nat) (w : TWindow)
    (recData : List (String × List RecordingSegment)) (s : TimelineState)
    (h : s.recordingRanges.hasCoverage (coverageQuery now w) = false) :
    (refreshRecordings now w (.ok recData) s).1 =
      { s with
        dataset := (groupSegments recData).foldl
          (fun ds p => processCameraSegments ds p.1 p.2) s.dataset,
        recordingRanges := s.recordingRanges.add
          ⟨(convertRangeToCacheFriendlyTimes now w true).start,
            (convertRangeToCacheFriendlyTimes now w true).stop⟩ } := by
  unfold refreshRecordings
  unfold coverageQuery at h
  simp [h]

/-- The outcome of `refresh` in terms of its two legs. -/
theorem refresh_proj (now : Nat) (w : TWindow)
    (evF : Except Unit (List ViewMedia))
    (recF : Except Unit (List (String × List RecordingSegment))) (s : TimelineState) :
    (refresh now w evF recF s).state =
        (refreshRecordings now w recF (refreshEvents now w evF s).1).1 ∧
    (refresh now w evF recF s).eventsFetched = (refreshEvents now w evF s).2.1 ∧
    (refresh now w evF recF s).recordingsFetched =
        (refreshRecordings now w recF (refreshEvents now w evF s).1).2.1 := by
  unfold refresh promiseAllLegs
  by_cases h : ((refreshEvents now w evF s).2.2 ||
      (refreshRecordings now w recF (refreshEvents now w evF s).1).2.2) = true <;>
    simp [h]

/-- The coverage query is contained in the end-capped quantized window. -/
theorem coverageQuery_sub (now : Nat) (w : TWindow) :
    (convertRangeToCacheFriendlyTimes now w true).start ≤ (coverageQuery now w).start ∧
    (coverageQuery now w).stop ≤ (convertRangeToCacheFriendlyTimes now w true).stop := by
  constructor
  · exact cacheFriendly_start_le now w true
  · calc (coverageQuery now w).stop ≤ capEndDate now w.stop := Nat.sub_le _ _
      _ = min w.stop now := rfl
      _ ≤ (convertRangeToCacheFriendlyTimes now w true).stop := cacheFriendly_stop_ge now w

/-! ## Claim theorems -/

/-- C1, counterexample: the claim says each leg asks its tracker about
`[W.start, now - freshnessTolerance]` and skips exactly when covered.  At
this input the events leg skips its fetch (`eventsFetched = false`) even
though `[W.start, now - freshnessTolerance]` is *not* covered: the code
caps the window end to `now` before subtracting the tolerance, so it asks
about `[W.start, min(W.end, now) - tol]` instead. -/
theorem claim1_counterexample :
    (refresh 100000000 ⟨1000000, 2000000⟩ (Except.ok []) (Except.ok [])
        ⟨[], ⟨[⟨0, 20000000⟩]⟩, ⟨[⟨0, 20000000, 999999999⟩]⟩⟩).eventsFetched = false ∧
    ExpiringMemoryRangeSet.hasCoverage ⟨[⟨0, 20000000, 999999999⟩]⟩ 100000000
        ⟨1000000, 100000000 - TIMELINE_FRESHNESS_TOLERANCE_SECONDS * 1000⟩ = false := by
  constructor
  · decide
  · decide

/-- C1 (amended): on every refresh, each leg asks its tracker whether
`[W.start, capEndDate(now, W.end) - freshnessTolerance]` — the visible
window's end capped to `now`, minus the tolerance — is covered, and skips
that leg's fetch exactly when the tracker answers true. -/
theorem claim1_coverage_skip (now : Nat) (w : TWindow)
    (evF : Except Unit (List ViewMedia))
    (recF : Except Unit (List (String × List RecordingSegment))) (s : TimelineState) :
    ((refresh now w evF recF s).eventsFetched = false ↔
      s.eventRanges.hasCoverage now
        ⟨w.start, capEndDate now w.stop - TIMELINE_FRESHNESS_TOLERANCE_SECONDS * 1000⟩
        = true) ∧
    ((refresh now w evF recF s).recordingsFetched = false ↔
      s.recordingRanges.hasCoverage
        ⟨w.start, capEndDate now w.stop - TIMELINE_FRESHNESS_TOLERANCE_SECONDS * 1000⟩
        = true) := by
  obtain ⟨hst, hev, hrec⟩ := refresh_proj now w evF recF s
  constructor
  · rw [hev]
    exact refreshEvents_fetched_iff now w evF s
  · rw [hrec]
    have h := refreshRecordings_fetched_iff now w recF ((refreshEvents now w evF s).1)
    rw [refreshEvents_recordingRanges] at h
    exact h

/-- C2: `refresh` never rejects, whatever the two fetch legs do — the
`try`/`catch` swallows every error raised inside the cycle. -/
theorem claim2_refresh_never_rejects (now : Nat) (w : TWindow)
    (eventsFetch : Except Unit (List ViewMedia))
    (recordingsFetch : Except Unit (List (String × List RecordingSegment)))
    (s : TimelineState) :
    (refresh now w eventsFetch recordingsFetch s).result = Except.ok () := by
  unfold refresh promiseAllLegs
  by_cases h : ((refreshEvents now w eventsFetch s).2.2 ||
      (refreshRecordings now w recordingsFetch
        (refreshEvents now w eventsFetch s).1).2.2) = true <;>
    simp [h]

/-- C5, counterexample: the claim says that with `endCap` set and the
snapped end exceeding the current instant, the returned end equals `now`
itself.  At `now = 5100000` (01:25:00.000) and window
01:01:02–01:11:03 the snapped end 01:59:59.999 exceeds `now`, yet the
returned end is 5159999 (01:25:59.999, the end of `now`'s minute — the
value the repository's own unit test expects), not `now`. -/
theorem claim5_counterexample :
    5100000 < (convertRangeToCacheFriendlyTimes 5100000 ⟨3662000, 4263000⟩ false).stop ∧
    (convertRangeToCacheFriendlyTimes 5100000 ⟨3662000, 4263000⟩ true).stop ≠ 5100000 := by
  constructor
  · decide
  · decide

/-- C5 (amended): when `endCap` is set and the snapped end would exceed
the current instant, the returned end is the last millisecond of the
minute containing `now` (`endOfMinute now`, at `.999`), not the hour/day
ceiling; the snapped start is unaffected. -/
theorem claim5_endCap (now : Nat) (w : TWindow)
    (h : now < (convertRangeToCacheFriendlyTimes now w false).stop) :
    (convertRangeToCacheFriendlyTimes now w true).stop = endOfMinute now ∧
    (convertRangeToCacheFriendlyTimes now w true).start =
      (convertRangeToCacheFriendlyTimes now w false).start := by
  unfold convertRangeToCacheFriendlyTimes at h ⊢
  by_cases hp : w.start / MS_PER_HOUR = w.stop / MS_PER_HOUR
  · have hb : (w.start / MS_PER_HOUR == w.stop / MS_PER_HOUR) = true := beq_iff_eq.mpr hp
    simp only [hb, if_true] at h ⊢
    have hcap : capEndDate now (endOfHour w.stop) = now :=
      min_eq_right (le_of_lt h)
    rw [hcap]
    exact ⟨rfl, trivial⟩
  · have hb : (w.start / MS_PER_HOUR == w.stop / MS_PER_HOUR) = false := by
      cases hc : (w.start / MS_PER_HOUR == w.stop / MS_PER_HOUR)
      · rfl
      · exact absurd (beq_iff_eq.mp hc) hp
    simp only [hb, Bool.false_eq_true, if_false] at h ⊢
    have hcap : capEndDate now (endOfDay w.stop) = now :=
      min_eq_right (le_of_lt h)
    rw [hcap]
    exact ⟨rfl, trivial⟩

/-- Witness for C5 (amended) at the counterexample's input. -/
theorem claim5_endCap_witness :
    (convertRangeToCacheFriendlyTimes 5100000 ⟨3662000, 4263000⟩ true).stop =
        endOfMinute 5100000 ∧
    (convertRangeToCacheFriendlyTimes 5100000 ⟨3662000, 4263000⟩ true).start =
      (convertRangeToCacheFriendlyTimes 5100000 ⟨3662000, 4263000⟩ false).start :=
  claim5_endCap 5100000 ⟨3662000, 4263000⟩ (by decide)

/-- After a first refresh whose fetches both succeed, the event tracker
covers the coverage query at the same instant. -/
theorem events_covered_after_refresh (now : Nat) (w : TWindow)
    (evData : List ViewMedia) (recData : List (String × List RecordingSegment))
    (s : TimelineState) :
    ((refresh now w (Except.ok evData) (Except.ok recData) s).state).eventRanges.hasCoverage
      now (coverageQuery now w) = true := by
  obtain ⟨hst, _, _⟩ := refresh_proj now w (Except.ok evData) (Except.ok recData) s
  rw [hst, refreshRecordings_eventRanges]
  by_cases hcov : s.eventRanges.hasCoverage now (coverageQuery now w) = true
  · rw [refreshEvents_skip now w _ s hcov]
    exact hcov
  · have hcov' : s.eventRanges.hasCoverage now (coverageQuery now w) = false := by
      cases hc : s.eventRanges.hasCoverage now (coverageQuery now w)
      · rfl
      · exact absurd hc hcov
    rw [refreshEvents_ok_state now w evData s hcov']
    exact hasCoverage_add_expiring s.eventRanges _ now (coverageQuery now w)
      (coverageQuery_sub now w).1 (coverageQuery_sub now w).2
      (Nat.lt_add_of_pos_right (by decide))

/-- After a first refresh whose fetches both succeed, the recording
tracker covers the coverage query at the same instant. -/
theorem recordings_covered_after_refresh (now : Nat) (w : TWindow)
    (evData : List ViewMedia) (recData : List (String × List RecordingSegment))
    (s : TimelineState) :
    ((refresh now w (Except.ok evData) (Except.ok recData) s).state).recordingRanges.hasCoverage
      (coverageQuery now w) = true := by
  obtain ⟨hst, _, _⟩ := refresh_proj now w (Except.ok evData) (Except.ok recData) s
  rw [hst]
  by_cases hcov : s.recordingRanges.hasCoverage (coverageQuery now w) = true
  · have hcov1 : ((refreshEvents now w (Except.ok evData) s).1).recordingRanges.hasCoverage
        (coverageQuery now w) = true := by
      rw [refreshEvents_recordingRanges]; exact hcov
    rw [refreshRecordings_skip now w _ _ hcov1, refreshEvents_recordingRanges]
    exact hcov
  · have hcov' : ((refreshEvents now w (Except.ok evData) s).1).recordingRanges.hasCoverage
        (coverageQuery now w) = false := by
      rw [refreshEvents_recordingRanges]
      cases hc : s.recordingRanges.hasCoverage (coverageQuery now w)
      · rfl
      · exact absurd hc hcov
    rw [refreshRecordings_ok_state now w recData _ hcov']
    exact hasCoverage_add _ _ (coverageQuery now w)
      (coverageQuery_sub now w).1 (coverageQuery_sub now w).2

/-- C4: calling `refresh` twice in succession for the same window (with
the first call's fetches succeeding) issues zero remote fetches on the
second call — coverage was proven by the first call — and leaves the
whole state, in particular the item collection, unchanged. -/
theorem claim4_idempotent (now : Nat) (w : TWindow)
    (evData : List ViewMedia) (recData : List (String × List RecordingSegment))
    (evF2 : Except Unit (List ViewMedia))
    (recF2 : Except Unit (List (String × List RecordingSegment)))
    (s : TimelineState) :
    (refresh now w evF2 recF2
        (refresh now w (Except.ok evData) (Except.ok recData) s).state).eventsFetched
        = false ∧
    (refresh now w evF2 recF2
        (refresh now w (Except.ok evData) (Except.ok recData) s).state).recordingsFetched
        = false ∧
    (refresh now w evF2 recF2
        (refresh now w (Except.ok evData) (Except.ok recData) s).state).state =
      (refresh now w (Except.ok evData) (Except.ok recData) s).state := by
  have hev2 := events_covered_after_refresh now w evData recData s
  have hrec2 := recordings_covered_after_refresh now w evData recData s
  obtain ⟨hst2, hef2, hrf2⟩ := refresh_proj now w evF2 recF2
    (refresh now w (Except.ok evData) (Except.ok recData) s).state
  have hevskip := refreshEvents_skip now w evF2 _ hev2
  have hrecskip := refreshRecordings_skip now w recF2 _ hrec2
  refine ⟨?_, ?_, ?_⟩
  · rw [hef2, hevskip]
  · rw [hrf2, hevskip]
    exact congrArg (fun p => p.2.1) hrecskip
  · rw [hst2, hevskip]
    exact congrArg (fun p => p.1) hrecskip

/-- C3: in every cycle where one leg's fetch fails and the other
succeeds (neither leg skipped), the successful leg's items and coverage
are recorded while the failed leg records nothing.  Both orientations
are covered.  Events fail / recordings succeed: the event tracker is
untouched, the recording tracker gains exactly the quantized window, the
item collection carries exactly the recordings ingestion of the previous
collection, and no previously ingested non-background item changes.
Recordings fail / events succeed: the recording tracker is untouched,
the event tracker gains the quantized window with its expiry, and the
item collection carries exactly the events ingestion of the previous
collection.  In both orientations both fetches are attempted. -/
theorem claim3_partial_failure (now : Nat) (w : TWindow)
    (evData : List ViewMedia) (recData : List (String × List RecordingSegment))
    (s : TimelineState)
    (hev : s.eventRanges.hasCoverage now (coverageQuery now w) = false)
    (hrec : s.recordingRanges.hasCoverage (coverageQuery now w) = false) :
    (refresh now w (Except.error ()) (Except.ok recData) s).eventsFetched = true ∧
    (refresh now w (Except.error ()) (Except.ok recData) s).recordingsFetched = true ∧
    ((refresh now w (Except.error ()) (Except.ok recData) s).state).eventRanges =
      s.eventRanges ∧
    ((refresh now w (Except.error ()) (Except.ok recData) s).state).recordingRanges =
      s.recordingRanges.add
        ⟨(convertRangeToCacheFriendlyTimes now w true).start,
          (convertRangeToCacheFriendlyTimes now w true).stop⟩ ∧
    ((refresh now w (Except.error ()) (Except.ok recData) s).state).dataset =
      (groupSegments recData).foldl (fun ds p => processCameraSegments ds p.1 p.2)
        s.dataset ∧
    ((refresh now w (Except.error ()) (Except.ok recData) s).state).dataset.filter
        (fun it => !(it.type == ItemType.background)) =
      s.dataset.filter (fun it => !(it.type == ItemType.background)) ∧
    (refresh now w (Except.ok evData) (Except.error ()) s).eventsFetched = true ∧
    (refresh now w (Except.ok evData) (Except.error ()) s).recordingsFetched = true ∧
    ((refresh now w (Except.ok evData) (Except.error ()) s).state).recordingRanges =
      s.recordingRanges ∧
    ((refresh now w (Except.ok evData) (Except.error ()) s).state).eventRanges =
      s.eventRanges.add
        ⟨(convertRangeToCacheFriendlyTimes now w true).start,
          (convertRangeToCacheFriendlyTimes now w true).stop,
          now + TIMELINE_FRESHNESS_TOLERANCE_SECONDS * 1000⟩ ∧
    ((refresh now w (Except.ok evData) (Except.error ()) s).state).dataset =
      evData.foldl ingestEvent s.dataset := by
  obtain ⟨hstA, hefA, hrfA⟩ := refresh_proj now w (Except.error ()) (Except.ok recData) s
  have herrA := refreshEvents_error_state now w () s
  have hrecA : ((refreshEvents now w (Except.error ()) s).1).recordingRanges.hasCoverage
      (coverageQuery now w) = false := by
    rw [refreshEvents_recordingRanges]; exact hrec
  have hokA := refreshRecordings_ok_state now w recData
    ((refreshEvents now w (Except.error ()) s).1) hrecA
  obtain ⟨hstB, hefB, hrfB⟩ := refresh_proj now w (Except.ok evData) (Except.error ()) s
  have herrB := refreshRecordings_error_state now w ()
    ((refreshEvents now w (Except.ok evData) s).1)
  have hokB := refreshEvents_ok_state now w evData s hev
  have hrecB : ((refreshEvents now w (Except.ok evData) s).1).recordingRanges.hasCoverage
      (coverageQuery now w) = false := by
    rw [refreshEvents_recordingRanges]; exact hrec
  refine ⟨?_, ?_, ?_, ?_, ?_, ?_, ?_, ?_, ?_, ?_, ?_⟩
  · rw [hefA]
    cases hf : (refreshEvents now w (Except.error ()) s).2.1
    · rw [(refreshEvents_fetched_iff now w (Except.error ()) s).mp hf] at hev
      cases hev
    · rfl
  · rw [hrfA]
    cases hf : (refreshRecordings now w (Except.ok recData)
        ((refreshEvents now w (Except.error ()) s).1)).2.1
    · rw [(refreshRecordings_fetched_iff now w (Except.ok recData) _).mp hf] at hrecA
      cases hrecA
    · rfl
  · rw [hstA, refreshRecordings_eventRanges, herrA]
  · rw [hstA, hokA, herrA]
  · rw [hstA, hokA, herrA]
  · rw [hstA, hokA, herrA]
    exact foldProcess_filter (groupSegments recData) s.dataset _
      (fun q hq it hbg _ => by simp [hbg])
  · rw [hefB]
    cases hf : (refreshEvents now w (Except.ok evData) s).2.1
    · rw [(refreshEvents_fetched_iff now w (Except.ok evData) s).mp hf] at hev
      cases hev
    · rfl
  · rw [hrfB]
    cases hf : (refreshRecordings now w (Except.error ())
        ((refreshEvents now w (Except.ok evData) s).1)).2.1
    · rw [(refreshRecordings_fetched_iff now w (Except.error ()) _).mp hf] at hrecB
      cases hrecB
    · rfl
  · rw [hstB, herrB, refreshEvents_recordingRanges]
  · rw [hstB, herrB, hokB]
  · rw [hstB, herrB, hokB]

/-- Witness for C3: both orientations at concrete inputs — a failed
events leg next to a successful recordings leg, and a failed recordings
leg next to a successful events leg, from empty trackers. -/
theorem claim3_partial_failure_witness :
    (refresh 100000000 ⟨1000000, 2000000⟩ (Except.error ())
        (Except.ok [("cam", [⟨"s1", 10, 20⟩])]) ⟨[], ⟨[]⟩, ⟨[]⟩⟩).eventsFetched = true ∧
    (refresh 100000000 ⟨1000000, 2000000⟩ (Except.error ())
        (Except.ok [("cam", [⟨"s1", 10, 20⟩])]) ⟨[], ⟨[]⟩, ⟨[]⟩⟩).recordingsFetched = true ∧
    ((refresh 100000000 ⟨1000000, 2000000⟩ (Except.error ())
        (Except.ok [("cam", [⟨"s1", 10, 20⟩])]) ⟨[], ⟨[]⟩, ⟨[]⟩⟩).state).eventRanges =
      (⟨[], ⟨[]⟩, ⟨[]⟩⟩ : TimelineState).eventRanges ∧
    ((refresh 100000000 ⟨1000000, 2000000⟩ (Except.error ())
        (Except.ok [("cam", [⟨"s1", 10, 20⟩])]) ⟨[], ⟨[]⟩, ⟨[]⟩⟩).state).recordingRanges =
      MemoryRangeSet.add ⟨[]⟩
        ⟨(convertRangeToCacheFriendlyTimes 100000000 ⟨1000000, 2000000⟩ true).start,
          (convertRangeToCacheFriendlyTimes 100000000 ⟨1000000, 2000000⟩ true).stop⟩ ∧
    ((refresh 100000000 ⟨1000000, 2000000⟩ (Except.error ())
        (Except.ok [("cam", [⟨"s1", 10, 20⟩])]) ⟨[], ⟨[]⟩, ⟨[]⟩⟩).state).dataset =
      (groupSegments [("cam", [⟨"s1", 10, 20⟩])]).foldl
        (fun ds p => processCameraSegments ds p.1 p.2)
        ((⟨[], ⟨[]⟩, ⟨[]⟩⟩ : TimelineState).dataset) ∧
    ((refresh 100000000 ⟨1000000, 2000000⟩ (Except.error ())
        (Except.ok [("cam", [⟨"s1", 10, 20⟩])]) ⟨[], ⟨[]⟩, ⟨[]⟩⟩).state).dataset.filter
        (fun it => !(it.type == ItemType.background)) =
      ((⟨[], ⟨[]⟩, ⟨[]⟩⟩ : TimelineState).dataset).filter
        (fun it => !(it.type == ItemType.background)) ∧
    (refresh 100000000 ⟨1000000, 2000000⟩
        (Except.ok [⟨some "e1", "cam", some 100, some 200⟩]) (Except.error ())
        ⟨[], ⟨[]⟩, ⟨[]⟩⟩).eventsFetched = true ∧
    (refresh 100000000 ⟨1000000, 2000000⟩
        (Except.ok [⟨some "e1", "cam", some 100, some 200⟩]) (Except.error ())
        ⟨[], ⟨[]⟩, ⟨[]⟩⟩).recordingsFetched = true ∧
    ((refresh 100000000 ⟨1000000, 2000000⟩
        (Except.ok [⟨some "e1", "cam", some 100, some 200⟩]) (Except.error ())
        ⟨[], ⟨[]⟩, ⟨[]⟩⟩).state).recordingRanges =
      (⟨[], ⟨[]⟩, ⟨[]⟩⟩ : TimelineState).recordingRanges ∧
    ((refresh 100000000 ⟨1000000, 2000000⟩
        (Except.ok [⟨some "e1", "cam", some 100, some 200⟩]) (Except.error ())
        ⟨[], ⟨[]⟩, ⟨[]⟩⟩).state).eventRanges =
      ExpiringMemoryRangeSet.add ⟨[]⟩
        ⟨(convertRangeToCacheFriendlyTimes 100000000 ⟨1000000, 2000000⟩ true).start,
          (convertRangeToCacheFriendlyTimes 100000000 ⟨1000000, 2000000⟩ true).stop,
          100000000 + TIMELINE_FRESHNESS_TOLERANCE_SECONDS * 1000⟩ ∧
    ((refresh 100000000 ⟨1000000, 2000000⟩
        (Except.ok [⟨some "e1", "cam", some 100, some 200⟩]) (Except.error ())
        ⟨[], ⟨[]⟩, ⟨[]⟩⟩).state).dataset =
      ([⟨some "e1", "cam", some 100, some 200⟩] : List ViewMedia).foldl ingestEvent
        ((⟨[], ⟨[]⟩, ⟨[]⟩⟩ : TimelineState).dataset) :=
  claim3_partial_failure 100000000 ⟨1000000, 2000000⟩
    [⟨some "e1", "cam", some 100, some 200⟩] [("cam", [⟨"s1", 10, 20⟩])]
    ⟨[], ⟨[]⟩, ⟨[]⟩⟩ (by decide) (by decide)

/-- C8: after *every* successful non-skipped fetch leg — whatever the
sibling leg does (succeed, fail, or skip) — the *quantized* window is
added to that leg's tracker: with expiry `now + freshnessTolerance` for
the events tracker and with no expiry for the recordings tracker. -/
theorem claim8_coverage_recorded (now : Nat) (w : TWindow) :
    (∀ (evData : List ViewMedia)
        (recF : Except Unit (List (String × List RecordingSegment)))
        (s : TimelineState),
      s.eventRanges.hasCoverage now (coverageQuery now w) = false →
      ((refresh now w (Except.ok evData) recF s).state).eventRanges =
        s.eventRanges.add
          ⟨(convertRangeToCacheFriendlyTimes now w true).start,
            (convertRangeToCacheFriendlyTimes now w true).stop,
            now + TIMELINE_FRESHNESS_TOLERANCE_SECONDS * 1000⟩) ∧
    (∀ (evF : Except Unit (List ViewMedia))
        (recData : List (String × List RecordingSegment))
        (s : TimelineState),
      s.recordingRanges.hasCoverage (coverageQuery now w) = false →
      ((refresh now w evF (Except.ok recData) s).state).recordingRanges =
        s.recordingRanges.add
          ⟨(convertRangeToCacheFriendlyTimes now w true).start,
            (convertRangeToCacheFriendlyTimes now w true).stop⟩) := by
  constructor
  · intro evData recF s hev
    obtain ⟨hst, _, _⟩ := refresh_proj now w (Except.ok evData) recF s
    rw [hst, refreshRecordings_eventRanges,
      refreshEvents_ok_state now w evData s hev]
  · intro evF recData s hrec
    obtain ⟨hst, _, _⟩ := refresh_proj now w evF (Except.ok recData) s
    have hrec1 : ((refreshEvents now w evF s).1).recordingRanges.hasCoverage
        (coverageQuery now w) = false := by
      rw [refreshEvents_recordingRanges]; exact hrec
    rw [hst, refreshRecordings_ok_state now w recData _ hrec1,
      refreshEvents_recordingRanges]

/-- Witness for C8 from empty trackers, with the sibling leg *failing*
in each case: the successful leg still records its quantized coverage. -/
theorem claim8_coverage_recorded_witness :
    ((refresh 100000000 ⟨1000000, 2000000⟩ (Except.ok []) (Except.error ())
        ⟨[], ⟨[]⟩, ⟨[]⟩⟩).state).eventRanges =
      ExpiringMemoryRangeSet.add ⟨[]⟩
        ⟨(convertRangeToCacheFriendlyTimes 100000000 ⟨1000000, 2000000⟩ true).start,
          (convertRangeToCacheFriendlyTimes 100000000 ⟨1000000, 2000000⟩ true).stop,
          100000000 + TIMELINE_FRESHNESS_TOLERANCE_SECONDS * 1000⟩ ∧
    ((refresh 100000000 ⟨1000000, 2000000⟩ (Except.error ())
        (Except.ok [("cam", [⟨"s1", 10, 20⟩])]) ⟨[], ⟨[]⟩, ⟨[]⟩⟩).state).recordingRanges =
      MemoryRangeSet.add ⟨[]⟩
        ⟨(convertRangeToCacheFriendlyTimes 100000000 ⟨1000000, 2000000⟩ true).start,
          (convertRangeToCacheFriendlyTimes 100000000 ⟨1000000, 2000000⟩ true).stop⟩ :=
  ⟨(claim8_coverage_recorded 100000000 ⟨1000000, 2000000⟩).1 [] (Except.error ())
      ⟨[], ⟨[]⟩, ⟨[]⟩⟩ (by decide),
    (claim8_coverage_recorded 100000000 ⟨1000000, 2000000⟩).2 (Except.error ())
      [("cam", [⟨"s1", 10, 20⟩])] ⟨[], ⟨[]⟩, ⟨[]⟩⟩ (by decide)⟩

/-- The upsert always leaves an item carrying the update object's id,
start, group and kind in the collection. -/
theorem datasetUpdateEvent_mem (ds : List FrigateCardTimelineItem) (m : ViewMedia)
    (i : String) (st : Nat) :
    ∃ it ∈ datasetUpdateEvent ds m i st, it.id = i ∧ it.start = st ∧
      it.group = m.cameraID ∧
      it.type = (if m.endTime.isSome then ItemType.range else ItemType.point) := by
  unfold datasetUpdateEvent
  by_cases h : ds.any (fun x => x.id == i) = true
  · rw [if_pos h]
    rcases List.any_eq_true.mp h with ⟨x, hx, hxi⟩
    refine ⟨eventUpdateItem m i st (some x), List.mem_map.mpr ⟨x, hx, ?_⟩,
      rfl, rfl, rfl, rfl⟩
    rw [if_pos hxi]
  · rw [if_neg h]
    exact ⟨eventUpdateItem m i st none, List.mem_append_right _ (List.mem_singleton.mpr rfl),
      rfl, rfl, rfl, rfl⟩

/-- C6: every media record with a truthy id and a start time is upserted
as an item whose kind is `range` exactly when the record has an end time
and `point` otherwise; a record without a usable start time or id is
silently skipped; and a successful events fetch never makes the leg
fail. -/
theorem claim6_events_ingestion :
    (∀ (ds : List FrigateCardTimelineItem) (m : ViewMedia) (i : String) (st : Nat),
        m.id = some i → i ≠ "" → m.startTime = some st →
        ∃ it ∈ ingestEvent ds m, it.id = i ∧ it.start = st ∧ it.group = m.cameraID ∧
          it.type = (if m.endTime.isSome then ItemType.range else ItemType.point)) ∧
    (∀ (ds : List FrigateCardTimelineItem) (m : ViewMedia),
        m.id = none ∨ m.id = some "" ∨ m.startTime = none → ingestEvent ds m = ds) ∧
    (∀ (now : Nat) (w : TWindow) (ms : List ViewMedia) (s : TimelineState),
        (refreshEvents now w (Except.ok ms) s).2.2 = false) := by
  refine ⟨?_, ?_, ?_⟩
  · intro ds m i st hid hne hst
    have hfalse : (i == "") = false := by
      cases hc : (i == "")
      · rfl
      · exact absurd (beq_iff_eq.mp hc) hne
    unfold ingestEvent
    rw [hid, hst]
    show ∃ it ∈ (if (i == "") = true then ds else datasetUpdateEvent ds m i st),
      it.id = i ∧ it.start = st ∧ it.group = m.cameraID ∧
        it.type = (if m.endTime.isSome then ItemType.range else ItemType.point)
    rw [hfalse]
    simp only [Bool.false_eq_true, if_false]
    exact datasetUpdateEvent_mem ds m i st
  · intro ds m hmal
    rcases hmal with h | h | h
    · unfold ingestEvent
      rw [h]
    · unfold ingestEvent
      rw [h]
      cases hst2 : m.startTime
      · rfl
      · simp
    · unfold ingestEvent
      rw [h]
      cases hid2 : m.id <;> rfl
  · intro now w ms s
    unfold refreshEvents
    by_cases h : s.eventRanges.hasCoverage now
        ⟨w.start, capEndDate now w.stop - TIMELINE_FRESHNESS_TOLERANCE_SECONDS * 1000⟩
        = true <;> simp [h]

/-- Witness for C6: one well-formed record upserted as `range`, one
id-less record skipped, one successful empty fetch not failing the
leg. -/
theorem claim6_events_ingestion_witness :
    (∃ it ∈ ingestEvent [] ⟨some "e1", "cam", some 100, some 200⟩,
        it.id = "e1" ∧ it.start = 100 ∧
        it.group = (⟨some "e1", "cam", some 100, some 200⟩ : ViewMedia).cameraID ∧
        it.type = (if (⟨some "e1", "cam", some 100, some 200⟩ : ViewMedia).endTime.isSome
          then ItemType.range else ItemType.point)) ∧
    ingestEvent [] ⟨none, "cam", some 100, none⟩ = [] ∧
    (refreshEvents 100 ⟨0, 50⟩ (Except.ok []) ⟨[], ⟨[]⟩, ⟨[]⟩⟩).2.2 = false :=
  ⟨claim6_events_ingestion.1 [] ⟨some "e1", "cam", some 100, some 200⟩ "e1" 100 rfl
      (by decide) rfl,
    claim6_events_ingestion.2.1 [] ⟨none, "cam", some 100, none⟩ (Or.inl rfl),
    claim6_events_ingestion.2.2 100 ⟨0, 50⟩ [] ⟨[], ⟨[]⟩, ⟨[]⟩⟩⟩

/-- C7: for a camera present in a successful (non-skipped) recordings
fetch, its background items afterwards are exactly the compressed merge
of its previous background items and the converted new segments.  The
hypothesis `hend` states the reachable-state invariant that background
items always carry an end (they are only ever created with one). -/
theorem claim7_recordings_ingestion (now : Nat) (w : TWindow)
    (recData : List (String × List RecordingSegment)) (s : TimelineState)
    (c : String) (segs : List RecordingSegment)
    (hmem : (c, segs) ∈ groupSegments recData)
    (hend : ∀ it ∈ s.dataset, it.type = ItemType.background → it.group = c →
      it.endTime.isSome = true)
    (hnoskip : s.recordingRanges.hasCoverage (coverageQuery now w) = false) :
    ((refreshRecordings now w (Except.ok recData) s).1).dataset.filter
        (fun it => it.type == ItemType.background && it.group == c) =
      compressRanges
        (s.dataset.filter (fun it => it.type == ItemType.background && it.group == c) ++
          segs.map (convertSegmentToRecording c))
        TIMELINE_RECORDING_SEGMENT_CONSECUTIVE_TOLERANCE_SECONDS := by
  rw [refreshRecordings_ok_state now w recData s hnoskip]
  have hfold := foldProcess_bg (groupSegments recData) s.dataset c segs
    (groupSegments_keys_nodup recData) hmem
  rw [hfold]
  have hexist : getExistingRecordingsForCameraID s.dataset c =
      s.dataset.filter (fun it => it.type == ItemType.background && it.group == c) := by
    unfold getExistingRecordingsForCameraID
    refine List.filter_congr (fun a ha => ?_)
    cases hbg : (a.type == ItemType.background && a.group == c)
    · simp [hbg]
    · have hbg' := hbg
      simp only [Bool.and_eq_true, beq_iff_eq] at hbg'
      have hsome := hend a ha hbg'.1 hbg'.2
      simp [hbg, hsome]
  rw [hexist]

/-- Witness for C7: one camera with an existing background block and one
new overlapping segment. -/
theorem claim7_recordings_ingestion_witness :
    ((refreshRecordings 100000000 ⟨1000000, 2000000⟩
        (Except.ok [("cam", [⟨"s1", 10, 20⟩])])
        ⟨[⟨"recording-cam-s0", "cam", "", 0, some 5000, ItemType.background, none⟩],
          ⟨[]⟩, ⟨[]⟩⟩).1).dataset.filter
        (fun it => it.type == ItemType.background && it.group == "cam") =
      compressRanges
        (([⟨"recording-cam-s0", "cam", "", 0, some 5000, ItemType.background, none⟩] :
            List FrigateCardTimelineItem).filter
          (fun it => it.type == ItemType.background && it.group == "cam") ++
          ([⟨"s1", 10, 20⟩] : List RecordingSegment).map (convertSegmentToRecording "cam"))
        TIMELINE_RECORDING_SEGMENT_CONSECUTIVE_TOLERANCE_SECONDS :=
  claim7_recordings_ingestion 100000000 ⟨1000000, 2000000⟩ [("cam", [⟨"s1", 10, 20⟩])]
    ⟨[⟨"recording-cam-s0", "cam", "", 0, some 5000, ItemType.background, none⟩], ⟨[]⟩, ⟨[]⟩⟩
    "cam" [⟨"s1", 10, 20⟩] (by decide)
    (by
      intro it hit hbg hgrp
      rcases List.mem_singleton.mp hit with rfl
      rfl)
    (by decide)

/-- C10: a camera absent from the grouped recordings fetch result is left
completely untouched by the recordings ingestion — its background items
are neither deleted nor replaced. -/
theorem claim10_untouched_camera (now : Nat) (w : TWindow)
    (recData : List (String × List RecordingSegment)) (s : TimelineState) (c : String)
    (hnot : c ∉ (groupSegments recData).map Prod.fst) :
    ((refreshRecordings now w (Except.ok recData) s).1).dataset.filter
        (fun it => it.type == ItemType.background && it.group == c) =
      s.dataset.filter (fun it => it.type == ItemType.background && it.group == c) := by
  by_cases hcov : s.recordingRanges.hasCoverage (coverageQuery now w) = true
  · rw [refreshRecordings_skip now w _ s hcov]
  · have hcov' : s.recordingRanges.hasCoverage (coverageQuery now w) = false := by
      cases hc : s.recordingRanges.hasCoverage (coverageQuery now w)
      · rfl
      · exact absurd hc hcov
    rw [refreshRecordings_ok_state now w recData s hcov']
    refine foldProcess_filter (groupSegments recData) s.dataset _
      (fun q hq it hbg hgrp => ?_)
    have hne : q.1 ≠ c := fun he => hnot (he ▸ List.mem_map.mpr ⟨q, hq, rfl⟩)
    have hgc : (it.group == c) = false := by
      cases hgcb : (it.group == c)
      · rfl
      · exact absurd (hgrp ▸ beq_iff_eq.mp hgcb) hne
    simp [hgc]

/-- Witness for C10: a fetch result for `cam` leaves `other`'s background
item untouched. -/
theorem claim10_untouched_camera_witness :
    ((refreshRecordings 100000000 ⟨1000000, 2000000⟩
        (Except.ok [("cam", [⟨"s1", 10, 20⟩])])
        ⟨[⟨"recording-other-s0", "other", "", 0, some 5000, ItemType.background, none⟩],
          ⟨[]⟩, ⟨[]⟩⟩).1).dataset.filter
        (fun it => it.type == ItemType.background && it.group == "other") =
      (([⟨"recording-other-s0", "other", "", 0, some 5000, ItemType.background, none⟩] :
          List FrigateCardTimelineItem)).filter
        (fun it => it.type == ItemType.background && it.group == "other") :=
  claim10_untouched_camera 100000000 ⟨1000000, 2000000⟩ [("cam", [⟨"s1", 10, 20⟩])]
    ⟨[⟨"recording-other-s0", "other", "", 0, some 5000, ItemType.background, none⟩],
      ⟨[]⟩, ⟨[]⟩⟩ "other" (by decide)

/-- C9: `sortMedia` returns a collection ordered by the MediaSorter order
(startTime ascending, no-start records after all started records and
ordered by id among themselves), with duplicates collapsed: the output is
duplicate-free, every input record has a representative, the output is a
subsequence of the sorted input, and any record with no duplicate before
it in sorted order — in particular the first of its duplicate class — is
kept.  As a pure function it never mutates its input. -/
theorem claim9_sortMedia (l : List ViewMedia) :
    List.Sorted mediaLE (sortMedia l) ∧
    (sortMedia l).Pairwise (fun a b => isDuplicateMedia a b = false) ∧
    (∀ x ∈ l, ∃ y ∈ sortMedia l, isDuplicateMedia y x = true) ∧
    (sortMedia l).Sublist (List.insertionSort mediaLE l) ∧
    (∀ (l1 : List ViewMedia) (x : ViewMedia) (l2 : List ViewMedia),
      List.insertionSort mediaLE l = l1 ++ x :: l2 →
      (∀ y ∈ l1, isDuplicateMedia y x = false) → x ∈ sortMedia l) := by
  refine ⟨?_, dedupMediaGo_pairwise _ [], ?_, dedupMediaGo_sublist _ [], ?_⟩
  · exact (List.sorted_insertionSort mediaLE l).sublist (dedupMediaGo_sublist _ [])
  · intro x hx
    have hx' : x ∈ List.insertionSort mediaLE l :=
      (List.perm_insertionSort mediaLE l).mem_iff.mpr hx
    rcases dedupMediaGo_complete (List.insertionSort mediaLE l) [] x hx' with
      ⟨s, hs, _⟩ | h
    · simp at hs
    · exact h
  · intro l1 x l2 heq hnone
    unfold sortMedia
    rw [heq]
    exact dedupMediaGo_keeps_first l1 [] x l2 (by simp) hnone

/-- Witness for C9: a two-record list; the later-starting record has a
duplicate representative in the output. -/
theorem claim9_sortMedia_witness :
    ∃ y ∈ sortMedia [⟨some "b", "cam", some 5, none⟩, ⟨some "a", "cam", some 3, none⟩],
      isDuplicateMedia y ⟨some "b", "cam", some 5, none⟩ = true :=
  (claim9_sortMedia
      [⟨some "b", "cam", some 5, none⟩, ⟨some "a", "cam", some 3, none⟩]).2.2.1
    ⟨some "b", "cam", some 5, none⟩ (by simp)

end FrigateTimeline
